import Mathlib

/-!
Verification development for the Civ7 AI map-generation scripts
(`Working Outputs/smiley-face.js` and `Working Outputs/earthlike.js`).

The two scripts drive an external game engine (`TerrainBuilder`,
`GameplayMap`, `FractalBuilder`, and the `/base-standard/maps/...`
utilities).  The engine is not part of this repository, so its services
are represented here either as parameters (height fields, shape-mask
geometry, the seeded random stream) or, where a claim depends on their
behaviour, as definitions modelled from the specification (these carry a
`Modelled from the spec:` doc comment).  Everything written by the two
scripts themselves is translated directly from the source.
-/

namespace Civ7Map

/-- Terrain kinds written by the scripts: `globals.g_OceanTerrain`,
`globals.g_CoastTerrain` and `globals.g_FlatTerrain`. -/
inductive TerrainKind
  | Ocean
  | Coast
  | Flat
deriving DecidableEq, Repr

/-- Modelled from the spec: the per-cell tag bitset (spec §3 TagSet).  The
engine utilities `addLandmassPlotTags` / `addWaterPlotTags` and the tag
constants live outside this repository; per the spec a cell records
landmass-membership or water-membership together with an east/west side. -/
structure TagSet where
  landmass : Bool
  landWest : Bool
  landEast : Bool
  water : Bool
  waterWest : Bool
  waterEast : Bool
deriving DecidableEq, Repr

/-- Tag set with no tags, the image of `PlotTags.PLOT_TAG_NONE`
(smiley-face.js line 152, earthlike.js line 124). -/
def TagSet.noTags : TagSet :=
  { landmass := false, landWest := false, landEast := false
    water := false, waterWest := false, waterEast := false }

/-- Modelled from the spec: the engine utility
`utilities.addLandmassPlotTags(iX, iY, iEastContinentWest)` (external to the
repository).  Per spec §3 it records landmass membership plus the east/west
side of the cell relative to the east continent's west bound, replacing the
cell's previous tags. -/
def addLandmassPlotTags (x : Nat) (eastContinentWest : Rat) : TagSet :=
  { landmass := true
    landWest := decide ((x : Rat) < eastContinentWest)
    landEast := decide (eastContinentWest ≤ (x : Rat))
    water := false, waterWest := false, waterEast := false }

/-- Modelled from the spec: the engine utility
`utilities.addWaterPlotTags(iX, iY, iEastContinentWest)` (external to the
repository), recording water membership plus the east/west side,
replacing the cell's previous tags. -/
def addWaterPlotTags (x : Nat) (eastContinentWest : Rat) : TagSet :=
  { landmass := false, landWest := false, landEast := false
    water := true
    waterWest := decide ((x : Rat) < eastContinentWest)
    waterEast := decide (eastContinentWest ≤ (x : Rat)) }

/-- The mutable map state the scripts write through
`TerrainBuilder.setTerrainType` / `setPlotTag` and read through
`GameplayMap.getTerrainType`: a terrain kind and a tag set per cell. -/
structure Grid where
  terrainAt : Nat → Nat → TerrainKind
  tagsAt : Nat → Nat → TagSet

/-- `TerrainBuilder.setTerrainType(iX, iY, terrain)`: point update of the
terrain layer; tags are untouched. -/
def Grid.setTerrainType (g : Grid) (x y : Nat) (t : TerrainKind) : Grid :=
  { g with terrainAt := fun a b => if a = x ∧ b = y then t else g.terrainAt a b }

/-- A completely empty water world (used as the ambient engine state a
generation run starts from in concrete test instances). -/
def emptyGrid : Grid :=
  { terrainAt := fun _ _ => TerrainKind.Ocean, tagsAt := fun _ _ => TagSet.noTags }

/-- Land test: of the three kinds the scripts write, only `Flat` is land
(Ocean and Coast are water). -/
def isLandB : TerrainKind → Bool
  | TerrainKind.Flat => true
  | TerrainKind.Ocean => false
  | TerrainKind.Coast => false

/-- Offsets of the eight surrounding cells (spec §4.6: grid adjacency,
not diagonal-exclusive). -/
def neighborOffsets : List (Int × Int) :=
  [(-1, -1), (0, -1), (1, -1), (-1, 0), (1, 0), (-1, 1), (0, 1), (1, 1)]

/-- In-bounds neighbours of a cell on a `w × h` grid. -/
def neighbors (w h x y : Nat) : List (Nat × Nat) :=
  neighborOffsets.filterMap fun d =>
    let nx : Int := (x : Int) + d.1
    let ny : Int := (y : Int) + d.2
    if 0 ≤ nx ∧ nx < (w : Int) ∧ 0 ≤ ny ∧ ny < (h : Int) then
      some (nx.toNat, ny.toNat)
    else none

/-- Modelled from the spec: `GameplayMap.isAdjacentToShallowWater(iX, iY)` is
engine code outside the repository; per spec §4.6 and §8 a water cell
qualifies for coastalization when it is adjacent to at least one land
cell. -/
def isAdjacentToShallowWater (g : Grid) (w h x y : Nat) : Bool :=
  (neighbors w h x y).any fun c => isLandB (g.terrainAt c.1 c.2)

/-- Scan order of the nested loops `for iY ... for iX ...`: row-major,
y outer, x inner. -/
def scanCoords (w h : Nat) : List (Nat × Nat) :=
  (List.range h).flatMap fun y => (List.range w).map fun x => (x, y)

/-- `TerrainBuilder.getRandomNumber(max, tag)`: the k-th draw of the single
seeded stream `ρ`, reduced into `[0, max)`. -/
def getRandomNumber (ρ : Nat → Nat) (k max : Nat) : Nat := ρ k % max

/-- Body of the `expandCoasts` scan of smiley-face.js lines 228-243, for one
cell: an Ocean cell adjacent to shallow water draws
`getRandomNumber(2, "Coast Expansion")` and becomes Coast when the draw is 0.
The state is the grid together with the position in the random stream. -/
def expandCoastsStep (ρ : Nat → Nat) (w h : Nat) (st : Grid × Nat)
    (c : Nat × Nat) : Grid × Nat :=
  if st.1.terrainAt c.1 c.2 = TerrainKind.Ocean then
    if isAdjacentToShallowWater st.1 w h c.1 c.2 = true then
      if getRandomNumber ρ st.2 2 = 0 then
        (st.1.setTerrainType c.1 c.2 TerrainKind.Coast, st.2 + 1)
      else (st.1, st.2 + 1)
    else st
  else st

/-- Function `expandCoasts(iWidth, iHeight)` of smiley-face.js lines 225-244:
the in-place row-major scan, threading the random-stream position. -/
def expandCoasts (ρ : Nat → Nat) (w h : Nat) (g : Grid) (k0 : Nat) :
    Grid × Nat :=
  (scanCoords w h).foldl (expandCoastsStep ρ w h) (g, k0)

/-- Variant of `expandCoastsStep` that follows the words of the claim
(spec §4.6): draw one uniform random integer in `[0, 3)` and promote iff it
equals the fixed value 0.  Used only to compare against the source's
`expandCoastsStep`. -/
def expandCoastsClaimStep (ρ : Nat → Nat) (w h : Nat) (st : Grid × Nat)
    (c : Nat × Nat) : Grid × Nat :=
  if st.1.terrainAt c.1 c.2 = TerrainKind.Ocean then
    if isAdjacentToShallowWater st.1 w h c.1 c.2 = true then
      if getRandomNumber ρ st.2 3 = 0 then
        (st.1.setTerrainType c.1 c.2 TerrainKind.Coast, st.2 + 1)
      else (st.1, st.2 + 1)
    else st
  else st

/-- Whole-grid scan built from `expandCoastsClaimStep`. -/
def expandCoastsClaim (ρ : Nat → Nat) (w h : Nat) (g : Grid) (k0 : Nat) :
    Grid × Nat :=
  (scanCoords w h).foldl (expandCoastsClaimStep ρ w h) (g, k0)

/-- Variant of `expandCoastsStep` that decides eligibility from a snapshot
`g0` of the grid taken before the pass (spec §4.6: scan and decide per cell
using only the pre-pass classification), writing into the running grid. -/
def expandCoastsSnapshotStep (ρ : Nat → Nat) (w h : Nat) (g0 : Grid)
    (st : Grid × Nat) (c : Nat × Nat) : Grid × Nat :=
  if g0.terrainAt c.1 c.2 = TerrainKind.Ocean then
    if isAdjacentToShallowWater g0 w h c.1 c.2 = true then
      if getRandomNumber ρ st.2 2 = 0 then
        (st.1.setTerrainType c.1 c.2 TerrainKind.Coast, st.2 + 1)
      else (st.1, st.2 + 1)
    else st
  else st

/-- Coast expansion reading eligibility only from the pre-pass grid. -/
def expandCoastsSnapshot (ρ : Nat → Nat) (w h : Nat) (g : Grid) (k0 : Nat) :
    Grid × Nat :=
  (scanCoords w h).foldl (expandCoastsSnapshotStep ρ w h g) (g, k0)

/-- Region rectangle of smiley-face.js (lines 41-55).  The bounds are JS
numbers: `iWidth/2 - 12` and `iWidth/2 + 12` need not be integers, so the
fields are rationals (all the arithmetic the script does on them is exact
in binary floating point). -/
structure ContinentQ where
  west : Rat
  east : Rat
  south : Rat
  north : Rat
  continent : Nat

/-- `westContinent` of smiley-face.js lines 41-47, with the engine globals
`g_OceanWaterColumns` and `g_PolarWaterRows` as parameters. -/
def smileyWestContinent (w h oceanCols polarRows : Nat) : ContinentQ :=
  { west := (oceanCols : Rat)
    east := (w : Rat) / 2 - 12
    south := (polarRows : Rat)
    north := (h : Rat) - (polarRows : Rat)
    continent := 0 }

/-- `eastContinent` of smiley-face.js lines 49-55. -/
def smileyEastContinent (w h oceanCols polarRows : Nat) : ContinentQ :=
  { west := (w : Rat) / 2 + 12
    east := (w : Rat) - (oceanCols : Rat)
    south := (polarRows : Rat)
    north := (h : Rat) - (polarRows : Rat)
    continent := 1 }

/-- Terrain chosen for one cell by the loop body of
`createSmileyLandmasses` (smiley-face.js lines 149-221).  The loop reads no
other cell of the grid, so it is a pure function of the cell coordinates.
External pieces are parameters: `inFeature` stands for the eye/mouth
geometry block of lines 171-197 (floating-point `sqrt`/`sin` arithmetic over
x and y), `hF` for `utilities.getHeightAdjustingForStartSector`
(lines 200-205), `wH` for `iWaterHeight` and `cutoff` for
`globals.g_Cutoff`. -/
def smileyTerrainAt (inFeature : Nat → Nat → Bool) (hF : Nat → Nat → Rat)
    (wH cutoff : Rat) (c1 c2 : ContinentQ) (x y : Nat) : TerrainKind :=
  if (y : Rat) < c1.south ∨ c1.north ≤ (y : Rat) then
    TerrainKind.Ocean
  else if (x : Rat) < c1.west ∨ c2.east ≤ (x : Rat) ∨
      (c1.east ≤ (x : Rat) ∧ (x : Rat) < c2.west) then
    TerrainKind.Ocean
  else if inFeature x y = true ∨ hF x y < wH * cutoff then
    TerrainKind.Ocean
  else
    TerrainKind.Flat

/-- Tags chosen for one cell by smiley-face.js lines 213-218: the
`setPlotTag(.., PLOT_TAG_NONE)` of line 152 is overwritten by the land/water
tagging keyed on the terrain just computed. -/
def smileyTagsAt (inFeature : Nat → Nat → Bool) (hF : Nat → Nat → Rat)
    (wH cutoff : Rat) (c1 c2 : ContinentQ) (x y : Nat) : TagSet :=
  if smileyTerrainAt inFeature hF wH cutoff c1 c2 x y ≠ TerrainKind.Ocean ∧
      smileyTerrainAt inFeature hF wH cutoff c1 c2 x y ≠ TerrainKind.Coast then
    addLandmassPlotTags x c2.west
  else
    addWaterPlotTags x c2.west

/-- Function `createSmileyLandmasses` (smiley-face.js lines 136-223): every
in-bounds cell is written exactly once from the cell-local computation
above; out-of-bounds cells keep the prior engine state `g0`. -/
def createSmileyLandmasses (inFeature : Nat → Nat → Bool)
    (hF : Nat → Nat → Rat) (wH cutoff : Rat) (c1 c2 : ContinentQ)
    (w h : Nat) (g0 : Grid) : Grid :=
  { terrainAt := fun x y =>
      if x < w ∧ y < h then smileyTerrainAt inFeature hF wH cutoff c1 c2 x y
      else g0.terrainAt x y
    tagsAt := fun x y =>
      if x < w ∧ y < h then smileyTagsAt inFeature hF wH cutoff c1 c2 x y
      else g0.tagsAt x y }

/-- Core pipeline of smiley-face.js `generateMap` (lines 77-82): classify
with `createSmileyLandmasses` using the continent rectangles computed from
the grid size, then run `expandCoasts`.  The intervening
`TerrainBuilder.validateAndFixTerrain()` is engine code outside the
repository and outside the spec's core (spec §1-§2). -/
def smileyPipeline (inFeature : Nat → Nat → Bool) (hF : Nat → Nat → Rat)
    (wH cutoff : Rat) (w h oceanCols polarRows : Nat) (ρ : Nat → Nat)
    (k0 : Nat) (g0 : Grid) : Grid × Nat :=
  expandCoasts ρ w h
    (createSmileyLandmasses inFeature hF wH cutoff
      (smileyWestContinent w h oceanCols polarRows)
      (smileyEastContinent w h oceanCols polarRows) w h g0) k0

/-- Region rectangle of earthlike.js (lines 102-115).  All bounds there are
integers (`Math.floor` divisions and integer margins), so the fields are
integers. -/
structure ContinentI where
  west : Int
  east : Int
  south : Int
  north : Int
  continent : Nat

/-- `oceanBuffer` of earthlike.js line 93. -/
def oceanBuffer : Int := 8

/-- `gapStart = Math.floor(iWidth / 2) - Math.floor(oceanBuffer / 2)`
(earthlike.js line 94). -/
def earthGapStart (w : Nat) : Int := (w : Int) / 2 - oceanBuffer / 2

/-- `gapEnd = gapStart + oceanBuffer - 1` (earthlike.js line 95). -/
def earthGapEnd (w : Nat) : Int := earthGapStart w + oceanBuffer - 1

/-- `westContinent` of earthlike.js lines 102-108, with the engine globals
`g_OceanWaterColumns` and `g_PolarWaterRows` as parameters. -/
def earthWestContinent (w h oceanCols polarRows : Nat) : ContinentI :=
  { west := (oceanCols : Int)
    east := earthGapStart w - 1
    south := (polarRows : Int)
    north := (h : Int) - (polarRows : Int)
    continent := 0 }

/-- `eastContinent` of earthlike.js lines 109-115. -/
def earthEastContinent (w h oceanCols polarRows : Nat) : ContinentI :=
  { west := earthGapEnd w + 1
    east := (w : Int) - (oceanCols : Int)
    south := (polarRows : Int)
    north := (h : Int) - (polarRows : Int)
    continent := 1 }

/-- Membership of a cell in the nested loops
`for y = south..north, for x = west..east` (both bounds inclusive) of
earthlike.js lines 144-145 and 162-163. -/
def inContinentRegion (cont : ContinentI) (x y : Nat) : Prop :=
  cont.south ≤ (y : Int) ∧ (y : Int) ≤ cont.north ∧
    cont.west ≤ (x : Int) ∧ (x : Int) ≤ cont.east

instance (cont : ContinentI) (x y : Nat) : Decidable (inContinentRegion cont x y) := by
  unfold inContinentRegion; infer_instance

/-- Height fields and thresholds a `createContinent` call works with:
`FractalBuilder` is engine code outside the repository (spec §4.1 makes it a
deterministic pure function of seed and coarseness), so the primary and
secondary fields and their percentile thresholds are parameters. -/
structure FractalParams where
  hFPrimary : Nat → Nat → Rat
  thrPrimary : Rat
  hFSecondary : Nat → Nat → Rat
  thrSecondary : Rat

/-- Primary fractal pass of `createContinent` (earthlike.js lines 144-155):
inside the region, a cell that is still Ocean whose primary height meets the
threshold becomes Flat land with landmass tags.  The loop body reads only
the cell it writes, so the scan is a pointwise transform. -/
def createContinentPrimaryPass (hF : Nat → Nat → Rat) (thr : Rat)
    (cont : ContinentI) (eastContinentWest : Int) (g : Grid) : Grid :=
  { terrainAt := fun x y =>
      if inContinentRegion cont x y ∧ g.terrainAt x y = TerrainKind.Ocean ∧
          thr ≤ hF x y then
        TerrainKind.Flat
      else g.terrainAt x y
    tagsAt := fun x y =>
      if inContinentRegion cont x y ∧ g.terrainAt x y = TerrainKind.Ocean ∧
          thr ≤ hF x y then
        addLandmassPlotTags x (eastContinentWest : Rat)
      else g.tagsAt x y }

/-- Secondary fractal pass of `createContinent` (earthlike.js lines
162-174): inside the region, a cell that is Flat land whose secondary height
is below the refined threshold reverts to Ocean with water tags. -/
def createContinentSecondaryPass (hF : Nat → Nat → Rat) (thr : Rat)
    (cont : ContinentI) (eastContinentWest : Int) (g : Grid) : Grid :=
  { terrainAt := fun x y =>
      if inContinentRegion cont x y ∧ g.terrainAt x y = TerrainKind.Flat ∧
          hF x y < thr then
        TerrainKind.Ocean
      else g.terrainAt x y
    tagsAt := fun x y =>
      if inContinentRegion cont x y ∧ g.terrainAt x y = TerrainKind.Flat ∧
          hF x y < thr then
        addWaterPlotTags x (eastContinentWest : Rat)
      else g.tagsAt x y }

/-- Helper `createContinent(continent)` of earthlike.js lines 137-175:
primary pass then secondary pass.  Both passes tag relative to
`eastContinent.west` (the closure variable used at lines 151 and 170). -/
def createContinent (fp : FractalParams) (cont : ContinentI)
    (eastContinentWest : Int) (g : Grid) : Grid :=
  createContinentSecondaryPass fp.hFSecondary fp.thrSecondary cont
    eastContinentWest
    (createContinentPrimaryPass fp.hFPrimary fp.thrPrimary cont
      eastContinentWest g)

/-- Initialization loop of earthlike.js lines 121-126: every in-bounds cell
becomes Ocean with no tags. -/
def initOceanGrid (w h : Nat) (g0 : Grid) : Grid :=
  { terrainAt := fun x y =>
      if x < w ∧ y < h then TerrainKind.Ocean else g0.terrainAt x y
    tagsAt := fun x y =>
      if x < w ∧ y < h then TagSet.noTags else g0.tagsAt x y }

/-- Landmass classification of earthlike.js `generateMap` (lines 121-179):
initialize to ocean, carve the west continent, then the east continent.
Each `createContinent` call rebuilds its fractal fields, so each carries its
own `FractalParams`. -/
def earthlikeClassify (fpWest fpEast : FractalParams)
    (w h oceanCols polarRows : Nat) (g0 : Grid) : Grid :=
  createContinent fpEast (earthEastContinent w h oceanCols polarRows)
    (earthEastContinent w h oceanCols polarRows).west
    (createContinent fpWest (earthWestContinent w h oceanCols polarRows)
      (earthEastContinent w h oceanCols polarRows).west
      (initOceanGrid w h g0))

/-- Map-size configuration record returned by `GameInfo.Maps.lookup`
(fields read at smiley-face.js lines 58-63 and earthlike.js lines 211,
228-231). -/
structure MapInfo where
  PlayersLandmass1 : Nat
  PlayersLandmass2 : Nat
  NumNaturalWonders : Nat
  LakeGenerationFrequency : Nat
  StartSectorRows : Nat
  StartSectorCols : Nat

/-- Entry point `generateMap` of smiley-face.js (lines 28-130), restricted
to the core: the `GameInfo.Maps.lookup` result is checked first (lines
36-37) and a null lookup returns before any cell is written; otherwise the
`East or West` draw at stream position `k0` (line 66) is consumed and the
core pipeline runs.  `none` models the aborted run: no grid is produced. -/
def generateMapSmiley (mapInfo : Option MapInfo)
    (inFeature : Nat → Nat → Bool) (hF : Nat → Nat → Rat) (wH cutoff : Rat)
    (w h oceanCols polarRows : Nat) (ρ : Nat → Nat) (k0 : Nat) (g0 : Grid) :
    Option (Grid × Nat) :=
  match mapInfo with
  | none => none
  | some _ =>
      some (smileyPipeline inFeature hF wH cutoff w h oceanCols polarRows ρ
        (k0 + 1) g0)

/-- Entry point `generateMap` of earthlike.js (lines 77-270), restricted to
the core: the lookup is checked at lines 85-87 before any cell is written;
otherwise the grid is initialized and both continents are carved.  (The
`expandCoasts` earthlike imports is the engine's, outside the repository.) -/
def generateMapEarthlike (mapInfo : Option MapInfo)
    (fpWest fpEast : FractalParams) (w h oceanCols polarRows : Nat)
    (g0 : Grid) : Option Grid :=
  match mapInfo with
  | none => none
  | some _ => some (earthlikeClassify fpWest fpEast w h oceanCols polarRows g0)

/-! Helper lemmas about the coast-expansion fold. -/

lemma setTerrainType_lookup (g : Grid) (x y a b : Nat) (t : TerrainKind) :
    (g.setTerrainType x y t).terrainAt a b =
      if a = x ∧ b = y then t else g.terrainAt a b := rfl

lemma setTerrainType_tags (g : Grid) (x y : Nat) (t : TerrainKind) :
    (g.setTerrainType x y t).tagsAt = g.tagsAt := rfl

lemma list_any_congr {α : Type} (p q : α → Bool) :
    ∀ l : List α, (∀ a ∈ l, p a = q a) → l.any p = l.any q := by
  intro l
  induction l with
  | nil => intro _; rfl
  | cons a t ih =>
      intro hpq
      simp only [List.any_cons]
      rw [hpq a (List.mem_cons_self a t),
        ih fun b hb => hpq b (List.mem_cons_of_mem a hb)]

lemma isAdjacentToShallowWater_congr {g g' : Grid} (w h x y : Nat)
    (hL : ∀ a b, isLandB (g.terrainAt a b) = isLandB (g'.terrainAt a b)) :
    isAdjacentToShallowWater g w h x y = isAdjacentToShallowWater g' w h x y := by
  unfold isAdjacentToShallowWater
  exact list_any_congr _ _ _ fun c _ => hL c.1 c.2

lemma mem_neighbors {w h x y : Nat} {c : Nat × Nat}
    (hc : c ∈ neighbors w h x y) :
    (x : Int) - 1 ≤ (c.1 : Int) ∧ (c.1 : Int) ≤ (x : Int) + 1 ∧
      c.1 < w ∧ c.2 < h := by
  simp only [neighbors, List.mem_filterMap] at hc
  obtain ⟨d, hd, hsome⟩ := hc
  by_cases hb : 0 ≤ (x : Int) + d.1 ∧ (x : Int) + d.1 < (w : Int) ∧
      0 ≤ (y : Int) + d.2 ∧ (y : Int) + d.2 < (h : Int)
  · rw [if_pos hb] at hsome
    obtain ⟨hb1, hb2, hb3, hb4⟩ := hb
    obtain rfl : (((x : Int) + d.1).toNat, ((y : Int) + d.2).toNat) = c :=
      Option.some.inj hsome
    have hd1 : -1 ≤ d.1 ∧ d.1 ≤ 1 := by
      simp only [neighborOffsets, List.mem_cons, List.not_mem_nil, or_false] at hd
      rcases hd with rfl | rfl | rfl | rfl | rfl | rfl | rfl | rfl <;> exact ⟨by decide, by decide⟩
    omega
  · rw [if_neg hb] at hsome
    exact absurd hsome (by simp)

/-- Invariant maintained by the in-place coast-expansion scan relative to
the pre-pass grid `g0`: every cell is unchanged, or has been promoted from
Ocean to Coast while adjacent (in `g0`) to land; tags never change. -/
def ExpandInv (w h : Nat) (g0 g : Grid) : Prop :=
  (∀ x y, g.terrainAt x y = g0.terrainAt x y ∨
    (g.terrainAt x y = TerrainKind.Coast ∧
      g0.terrainAt x y = TerrainKind.Ocean ∧
      isAdjacentToShallowWater g0 w h x y = true)) ∧
  (∀ x y, g.tagsAt x y = g0.tagsAt x y)

lemma expandInv_self (w h : Nat) (g0 : Grid) : ExpandInv w h g0 g0 :=
  ⟨fun _ _ => Or.inl rfl, fun _ _ => rfl⟩

lemma expandInv_isLand {w h : Nat} {g0 g : Grid} (hI : ExpandInv w h g0 g) :
    ∀ a b, isLandB (g.terrainAt a b) = isLandB (g0.terrainAt a b) := by
  intro a b
  rcases hI.1 a b with heq | ⟨h1, h2, _⟩
  · rw [heq]
  · rw [h1, h2]; rfl

lemma expandCoastsStep_inv {ρ : Nat → Nat} {w h : Nat} {g0 g : Grid}
    {k : Nat} (c : Nat × Nat) (hI : ExpandInv w h g0 g) :
    ExpandInv w h g0 (expandCoastsStep ρ w h (g, k) c).1 := by
  unfold expandCoastsStep
  dsimp only
  by_cases h1 : g.terrainAt c.1 c.2 = TerrainKind.Ocean
  · rw [if_pos h1]
    by_cases h2 : isAdjacentToShallowWater g w h c.1 c.2 = true
    · rw [if_pos h2]
      by_cases h3 : getRandomNumber ρ k 2 = 0
      · rw [if_pos h3]
        have hg0 : g0.terrainAt c.1 c.2 = TerrainKind.Ocean := by
          rcases hI.1 c.1 c.2 with heq | ⟨hcst, _, _⟩
          · rw [← heq]; exact h1
          · rw [h1] at hcst; cases hcst
        have hadj0 : isAdjacentToShallowWater g0 w h c.1 c.2 = true := by
          rw [← isAdjacentToShallowWater_congr w h c.1 c.2 (expandInv_isLand hI)]
          exact h2
        refine ⟨fun a b => ?_, fun a b => ?_⟩
        · dsimp only
          rw [setTerrainType_lookup]
          by_cases hab : a = c.1 ∧ b = c.2
          · rw [if_pos hab]
            obtain ⟨rfl, rfl⟩ := hab
            exact Or.inr ⟨rfl, hg0, hadj0⟩
          · rw [if_neg hab]
            exact hI.1 a b
        · dsimp only
          rw [setTerrainType_tags]
          exact hI.2 a b
      · rw [if_neg h3]; exact hI
    · rw [if_neg h2]; exact hI
  · rw [if_neg h1]; exact hI

lemma expandCoasts_foldl_inv (ρ : Nat → Nat) (w h : Nat) (g0 : Grid) :
    ∀ (L : List (Nat × Nat)) (g : Grid) (k : Nat), ExpandInv w h g0 g →
      ExpandInv w h g0 ((L.foldl (expandCoastsStep ρ w h) (g, k)).1) := by
  intro L
  induction L with
  | nil => intro g k hI; exact hI
  | cons c t ih =>
      intro g k hI
      rw [List.foldl_cons]
      rcases hst : expandCoastsStep ρ w h (g, k) c with ⟨g', k'⟩
      have hstep := expandCoastsStep_inv (ρ := ρ) (k := k) c hI
      rw [hst] at hstep
      exact ih g' k' hstep

lemma expandCoasts_inv (ρ : Nat → Nat) (w h : Nat) (g0 : Grid) (k0 : Nat) :
    ExpandInv w h g0 (expandCoasts ρ w h g0 k0).1 :=
  expandCoasts_foldl_inv ρ w h g0 (scanCoords w h) g0 k0
    (expandInv_self w h g0)

lemma expandCoastsStep_no_draw {ρ : Nat → Nat} {w h : Nat} {g : Grid}
    {k : Nat} {c : Nat × Nat}
    (hnd : ¬(g.terrainAt c.1 c.2 = TerrainKind.Ocean ∧
      isAdjacentToShallowWater g w h c.1 c.2 = true)) :
    expandCoastsStep ρ w h (g, k) c = (g, k) := by
  unfold expandCoastsStep
  dsimp only
  by_cases h1 : g.terrainAt c.1 c.2 = TerrainKind.Ocean
  · rw [if_pos h1, if_neg fun h2 => hnd ⟨h1, h2⟩]
  · rw [if_neg h1]

lemma expandCoastsStep_draw {ρ : Nat → Nat} {w h : Nat} {g : Grid}
    {k : Nat} {c : Nat × Nat}
    (h1 : g.terrainAt c.1 c.2 = TerrainKind.Ocean)
    (h2 : isAdjacentToShallowWater g w h c.1 c.2 = true) :
    expandCoastsStep ρ w h (g, k) c =
      (if getRandomNumber ρ k 2 = 0 then
        (g.setTerrainType c.1 c.2 TerrainKind.Coast, k + 1)
      else (g, k + 1)) := by
  unfold expandCoastsStep
  dsimp only
  rw [if_pos h1, if_pos h2]

lemma expandCoastsStep_counter_le (ρ : Nat → Nat) (w h : Nat)
    (g : Grid) (k : Nat) (c : Nat × Nat) :
    k ≤ (expandCoastsStep ρ w h (g, k) c).2 := by
  by_cases hd : g.terrainAt c.1 c.2 = TerrainKind.Ocean ∧
      isAdjacentToShallowWater g w h c.1 c.2 = true
  · rw [expandCoastsStep_draw hd.1 hd.2]
    by_cases h3 : getRandomNumber ρ k 2 = 0
    · rw [if_pos h3]; exact Nat.le_succ k
    · rw [if_neg h3]; exact Nat.le_succ k
  · rw [expandCoastsStep_no_draw hd]

lemma expandCoasts_foldl_counter_mono (ρ : Nat → Nat) (w h : Nat) :
    ∀ (L : List (Nat × Nat)) (g : Grid) (k : Nat),
      k ≤ (L.foldl (expandCoastsStep ρ w h) (g, k)).2 := by
  intro L
  induction L with
  | nil => intro g k; exact Nat.le_refl k
  | cons c t ih =>
      intro g k
      rw [List.foldl_cons]
      rcases hst : expandCoastsStep ρ w h (g, k) c with ⟨g', k'⟩
      have h1 : k ≤ k' := by
        have := expandCoastsStep_counter_le ρ w h g k c
        rw [hst] at this
        exact this
      exact le_trans h1 (ih g' k')

lemma expandCoasts_foldl_agree (w h : Nat) (ρ1 ρ2 : Nat → Nat) :
    ∀ (L : List (Nat × Nat)) (g : Grid) (k : Nat),
      (∀ i, k ≤ i → i < (L.foldl (expandCoastsStep ρ1 w h) (g, k)).2 →
        ρ1 i = ρ2 i) →
      L.foldl (expandCoastsStep ρ1 w h) (g, k) =
        L.foldl (expandCoastsStep ρ2 w h) (g, k) := by
  intro L
  induction L with
  | nil => intro g k _; rfl
  | cons c t ih =>
      intro g k hag
      rw [List.foldl_cons, List.foldl_cons]
      by_cases hd : g.terrainAt c.1 c.2 = TerrainKind.Ocean ∧
          isAdjacentToShallowWater g w h c.1 c.2 = true
      · have hk : ρ1 k = ρ2 k := by
          apply hag k (Nat.le_refl k)
          rw [List.foldl_cons, expandCoastsStep_draw hd.1 hd.2]
          have hk1 : k + 1 ≤ (t.foldl (expandCoastsStep ρ1 w h)
              (if getRandomNumber ρ1 k 2 = 0 then
                (g.setTerrainType c.1 c.2 TerrainKind.Coast, k + 1)
              else (g, k + 1))).2 := by
            by_cases h3 : getRandomNumber ρ1 k 2 = 0
            · rw [if_pos h3]; exact expandCoasts_foldl_counter_mono ρ1 w h t _ _
            · rw [if_neg h3]; exact expandCoasts_foldl_counter_mono ρ1 w h t _ _
          exact Nat.lt_of_lt_of_le (Nat.lt_succ_self k) hk1
        have hsteps : expandCoastsStep ρ1 w h (g, k) c =
            expandCoastsStep ρ2 w h (g, k) c := by
          rw [expandCoastsStep_draw hd.1 hd.2, expandCoastsStep_draw hd.1 hd.2]
          unfold getRandomNumber
          rw [hk]
        rw [hsteps]
        rcases hst : expandCoastsStep ρ2 w h (g, k) c with ⟨g', k'⟩
        have hk' : k ≤ k' := by
          have := expandCoastsStep_counter_le ρ2 w h g k c
          rw [hst] at this
          exact this
        apply ih g' k'
        intro i hi1 hi2
        apply hag i (le_trans hk' hi1)
        rw [List.foldl_cons, hsteps, hst]
        exact hi2
      · rw [expandCoastsStep_no_draw (ρ := ρ1) hd,
          expandCoastsStep_no_draw (ρ := ρ2) hd]
        apply ih g k
        intro i hi1 hi2
        apply hag i hi1
        rw [List.foldl_cons, expandCoastsStep_no_draw (ρ := ρ1) hd]
        exact hi2

lemma scanCoords_nodup (w h : Nat) : (scanCoords w h).Nodup := by
  unfold scanCoords
  rw [List.nodup_flatMap]
  refine ⟨fun y _ => ?_, ?_⟩
  · exact (List.nodup_range w).map fun x1 x2 hx => congrArg Prod.fst hx
  · have hlt := List.pairwise_lt_range h
    refine hlt.imp ?_
    intro y1 y2 hylt
    intro a ha1 ha2
    rcases List.mem_map.mp ha1 with ⟨x1, _, rfl⟩
    rcases List.mem_map.mp ha2 with ⟨x2, _, he⟩
    have : y2 = y1 := congrArg Prod.snd he
    omega

lemma expandCoasts_foldl_snapshot (ρ : Nat → Nat) (w h : Nat) (g0 : Grid) :
    ∀ (L : List (Nat × Nat)) (g : Grid) (k : Nat), L.Nodup →
      (∀ c ∈ L, g.terrainAt c.1 c.2 = g0.terrainAt c.1 c.2) →
      (∀ a b, isLandB (g.terrainAt a b) = isLandB (g0.terrainAt a b)) →
      L.foldl (expandCoastsStep ρ w h) (g, k) =
        L.foldl (expandCoastsSnapshotStep ρ w h g0) (g, k) := by
  intro L
  induction L with
  | nil => intro g k _ _ _; rfl
  | cons c t ih =>
      intro g k hnd hagr hland
      rw [List.foldl_cons, List.foldl_cons]
      have hterr : g.terrainAt c.1 c.2 = g0.terrainAt c.1 c.2 :=
        hagr c (List.mem_cons_self c t)
      have hadj : isAdjacentToShallowWater g w h c.1 c.2 =
          isAdjacentToShallowWater g0 w h c.1 c.2 :=
        isAdjacentToShallowWater_congr w h c.1 c.2 hland
      have hsteps : expandCoastsStep ρ w h (g, k) c =
          expandCoastsSnapshotStep ρ w h g0 (g, k) c := by
        unfold expandCoastsStep expandCoastsSnapshotStep
        dsimp only
        rw [hterr, hadj]
      rw [hsteps]
      rcases hst : expandCoastsSnapshotStep ρ w h g0 (g, k) c with ⟨g', k'⟩
      have heffect : g' = g ∨ (g' = g.setTerrainType c.1 c.2 TerrainKind.Coast ∧
          g.terrainAt c.1 c.2 = TerrainKind.Ocean) := by
        rw [← hsteps] at hst
        by_cases hd : g.terrainAt c.1 c.2 = TerrainKind.Ocean ∧
            isAdjacentToShallowWater g w h c.1 c.2 = true
        · rw [expandCoastsStep_draw hd.1 hd.2] at hst
          by_cases h3 : getRandomNumber ρ k 2 = 0
          · rw [if_pos h3] at hst
            exact Or.inr ⟨(congrArg Prod.fst hst).symm, hd.1⟩
          · rw [if_neg h3] at hst
            exact Or.inl (congrArg Prod.fst hst).symm
        · rw [expandCoastsStep_no_draw hd] at hst
          exact Or.inl (congrArg Prod.fst hst).symm
      have hcnot : c ∉ t := (List.nodup_cons.mp hnd).1
      apply ih g' k' (List.nodup_cons.mp hnd).2
      · intro c' hc'
        have hne : ¬(c'.1 = c.1 ∧ c'.2 = c.2) := by
          intro hcc
          exact hcnot (by
            have : c' = c := Prod.ext hcc.1 hcc.2
            exact this ▸ hc')
        rcases heffect with rfl | ⟨rfl, _⟩
        · exact hagr c' (List.mem_cons_of_mem c hc')
        · rw [setTerrainType_lookup, if_neg hne]
          exact hagr c' (List.mem_cons_of_mem c hc')
      · intro a b
        rcases heffect with rfl | ⟨rfl, hoc⟩
        · exact hland a b
        · rw [setTerrainType_lookup]
          by_cases hab : a = c.1 ∧ b = c.2
          · rw [if_pos hab]
            obtain ⟨rfl, rfl⟩ := hab
            rw [← hland c.1 c.2, hoc]
            rfl
          · rw [if_neg hab]
            exact hland a b

/-- Concrete 2-cell pre-pass grid used in witnesses: Flat land at (0,0),
Ocean at (1,0). -/
def coastTestGrid : Grid :=
  { terrainAt := fun x y =>
      if x = 0 ∧ y = 0 then TerrainKind.Flat else TerrainKind.Ocean
    tagsAt := fun _ _ => TagSet.noTags }

/-- Fractal parameters that turn every in-region cell to land and revert
nothing: constant height 1000 against thresholds 0. -/
def fpAllLand : FractalParams :=
  { hFPrimary := fun _ _ => 1000, thrPrimary := 0
    hFSecondary := fun _ _ => 1000, thrSecondary := 0 }

/-- C5: coast expansion is one-shot and order-independent: because cells are
promoted only from Ocean to Coast and eligibility depends only on adjacency
to land cells, the in-place row-major scan of `expandCoasts` computes
exactly the same grid and stream position as a scan deciding every cell
from a snapshot of the grid taken before the pass. -/
theorem expand_coasts_snapshot_equiv (ρ : Nat → Nat) (w h : Nat) (g0 : Grid)
    (k0 : Nat) :
    expandCoasts ρ w h g0 k0 = expandCoastsSnapshot ρ w h g0 k0 :=
  expandCoasts_foldl_snapshot ρ w h g0 (scanCoords w h) g0 k0
    (scanCoords_nodup w h) (fun _ _ => rfl) (fun _ _ => rfl)

/-- C7: coast-expansion bound: every cell the pass made Coast was Ocean
before the pass and is adjacent to at least one land cell; a Flat land cell
is never converted by the pass. -/
theorem coast_expansion_bound (ρ : Nat → Nat) (w h : Nat) (g0 : Grid)
    (k0 x y : Nat) :
    (((expandCoasts ρ w h g0 k0).1.terrainAt x y = TerrainKind.Coast ∧
        g0.terrainAt x y ≠ TerrainKind.Coast) →
      g0.terrainAt x y = TerrainKind.Ocean ∧
        isAdjacentToShallowWater g0 w h x y = true) ∧
    (g0.terrainAt x y = TerrainKind.Flat →
      (expandCoasts ρ w h g0 k0).1.terrainAt x y = TerrainKind.Flat) := by
  have hI := expandCoasts_inv ρ w h g0 k0
  constructor
  · rintro ⟨hc, hnc⟩
    rcases hI.1 x y with heq | ⟨_, h2, h3⟩
    · rw [heq] at hc
      exact absurd hc hnc
    · exact ⟨h2, h3⟩
  · intro hflat
    rcases hI.1 x y with heq | ⟨_, hoc, _⟩
    · rw [heq]; exact hflat
    · rw [hflat] at hoc
      exact absurd hoc (by decide)

/-- Witness for `coast_expansion_bound`: on the concrete 2×1 grid the pass
promotes cell (1,0), which was Ocean and adjacent to the land at (0,0). -/
theorem coast_expansion_bound_witness :
    (expandCoasts (fun _ => 0) 2 1 coastTestGrid 0).1.terrainAt 1 0 =
        TerrainKind.Coast ∧
    (coastTestGrid.terrainAt 1 0 = TerrainKind.Ocean ∧
      isAdjacentToShallowWater coastTestGrid 2 1 1 0 = true) :=
  ⟨by decide, (coast_expansion_bound (fun _ => 0) 2 1 coastTestGrid 0 1 0).1
    ⟨by decide, by decide⟩⟩

/-- C2: determinism: the core pipeline is a pure function of the seed-derived
inputs; in particular two runs whose random streams agree on the draws the
first run actually consumes (the positions from `k0` up to the final stream
position) produce identical grids and identical final stream positions.
The external height field, start-sector and shape inputs are deterministic
functions of the seed per spec §4.1/§5 and enter as fixed parameters. -/
theorem map_determinism (inFeature : Nat → Nat → Bool) (hF : Nat → Nat → Rat)
    (wH cutoff : Rat) (w h oceanCols polarRows k0 : Nat) (g0 : Grid)
    (ρ1 ρ2 : Nat → Nat)
    (hagree : ∀ i, k0 ≤ i →
      i < (smileyPipeline inFeature hF wH cutoff w h oceanCols polarRows
        ρ1 k0 g0).2 → ρ1 i = ρ2 i) :
    smileyPipeline inFeature hF wH cutoff w h oceanCols polarRows ρ1 k0 g0 =
      smileyPipeline inFeature hF wH cutoff w h oceanCols polarRows ρ2 k0 g0 :=
  expandCoasts_foldl_agree w h ρ1 ρ2 (scanCoords w h) _ k0 hagree

/-- Witness for `map_determinism` with two syntactically different but
pointwise-agreeing streams. -/
theorem map_determinism_witness :
    smileyPipeline (fun _ _ => false) (fun _ _ => 0) 0 0 1 1 0 0
        (fun _ => 0) 0 emptyGrid =
      smileyPipeline (fun _ _ => false) (fun _ _ => 0) 0 0 1 1 0 0
        (fun i => 0 * i) 0 emptyGrid :=
  map_determinism (fun _ _ => false) (fun _ _ => 0) 0 0 1 1 0 0 0 emptyGrid
    (fun _ => 0) (fun i => 0 * i) (fun i _ _ => (Nat.zero_mul i).symm)

/-- C4 counterexample: the source's coast expander draws
`getRandomNumber(2, ...)` (a uniform integer in [0, 2)), not one in [0, 3):
with a stream whose next raw value is 2, the source promotes the eligible
cell (2 mod 2 = 0) while the claim's [0, 3) draw (2 mod 3 = 2) would not,
so the scans disagree on the concrete grid. -/
theorem coast_draw_range_counterexample :
    (expandCoasts (fun _ => 2) 2 1 coastTestGrid 0).1.terrainAt 1 0 =
        TerrainKind.Coast ∧
    (expandCoastsClaim (fun _ => 2) 2 1 coastTestGrid 0).1.terrainAt 1 0 =
        TerrainKind.Ocean ∧
    TerrainKind.Coast ≠ TerrainKind.Ocean :=
  ⟨by decide, by decide, by decide⟩

/-- C4 amended: for every eligible Ocean cell the coast expander draws one
uniform random integer in [0, 2) and promotes the cell to Coast iff the
draw equals 0, i.e. with probability 1/2 (one residue out of two), while
always advancing the stream by one. -/
theorem coast_draw_half (ρ : Nat → Nat) (w h : Nat) (g : Grid) (k x y : Nat)
    (hO : g.terrainAt x y = TerrainKind.Ocean)
    (hA : isAdjacentToShallowWater g w h x y = true) :
    getRandomNumber ρ k 2 < 2 ∧
    expandCoastsStep ρ w h (g, k) (x, y) =
      (if getRandomNumber ρ k 2 = 0 then
        (g.setTerrainType x y TerrainKind.Coast, k + 1)
      else (g, k + 1)) :=
  ⟨Nat.mod_lt _ (by decide), expandCoastsStep_draw hO hA⟩

/-- Witness for `coast_draw_half` at the concrete eligible cell (1,0). -/
theorem coast_draw_half_witness :
    getRandomNumber (fun _ => 2) 0 2 < 2 ∧
    expandCoastsStep (fun _ => 2) 2 1 (coastTestGrid, 0) (1, 0) =
      (if getRandomNumber (fun _ => 2) 0 2 = 0 then
        (coastTestGrid.setTerrainType 1 0 TerrainKind.Coast, 0 + 1)
      else (coastTestGrid, 0 + 1)) :=
  coast_draw_half (fun _ => 2) 2 1 coastTestGrid 0 1 0 (by decide) (by decide)

/-- C3: monotonic refinement: for every region, height fields and input
grid, a cell that is Flat land after the secondary (refinement) pass of
`createContinent` was already Flat land after the primary pass — the
secondary pass only reverts land to Ocean, never creates land. -/
theorem secondary_pass_monotonic (fp : FractalParams) (cont : ContinentI)
    (eastContinentWest : Int) (g : Grid) (x y : Nat)
    (hland : isLandB ((createContinent fp cont eastContinentWest g).terrainAt
      x y) = true) :
    isLandB ((createContinentPrimaryPass fp.hFPrimary fp.thrPrimary cont
      eastContinentWest g).terrainAt x y) = true := by
  unfold createContinent createContinentSecondaryPass at hland
  dsimp only at hland
  by_cases hc : inContinentRegion cont x y ∧
      (createContinentPrimaryPass fp.hFPrimary fp.thrPrimary cont
        eastContinentWest g).terrainAt x y = TerrainKind.Flat ∧
      fp.hFSecondary x y < fp.thrSecondary
  · rw [if_pos hc] at hland
    exact absurd hland (by decide)
  · rw [if_neg hc] at hland
    exact hland

/-- Witness for `secondary_pass_monotonic` on a concrete 12×6 earthlike
instance where cell (1,1) is land after both passes. -/
theorem secondary_pass_monotonic_witness :
    isLandB ((createContinentPrimaryPass fpAllLand.hFPrimary
      fpAllLand.thrPrimary (earthWestContinent 12 6 1 1) 10
      (initOceanGrid 12 6 emptyGrid)).terrainAt 1 1) = true :=
  secondary_pass_monotonic fpAllLand (earthWestContinent 12 6 1 1) 10
    (initOceanGrid 12 6 emptyGrid) 1 1 (by decide)

/-- C10: fail-fast on missing configuration: when `GameInfo.Maps.lookup`
yields nothing, both entry points return before writing any cell — no grid
(partial or otherwise) is produced. -/
theorem missing_config_fail_fast (inFeature : Nat → Nat → Bool)
    (hF : Nat → Nat → Rat) (wH cutoff : Rat) (w h oceanCols polarRows : Nat)
    (ρ : Nat → Nat) (k0 : Nat) (g0 : Grid) (fpWest fpEast : FractalParams)
    (w2 h2 oc2 pr2 : Nat) (g2 : Grid) :
    generateMapSmiley none inFeature hF wH cutoff w h oceanCols polarRows
        ρ k0 g0 = none ∧
    generateMapEarthlike none fpWest fpEast w2 h2 oc2 pr2 g2 = none :=
  ⟨rfl, rfl⟩

lemma smileyTerrainAt_gap (inFeature : Nat → Nat → Bool)
    (hF : Nat → Nat → Rat) (wH cutoff : Rat) (c1 c2 : ContinentQ)
    {x : Nat} (y : Nat) (hx1 : c1.east ≤ (x : Rat))
    (hx2 : (x : Rat) < c2.west) :
    smileyTerrainAt inFeature hF wH cutoff c1 c2 x y = TerrainKind.Ocean := by
  unfold smileyTerrainAt
  by_cases hp : (y : Rat) < c1.south ∨ c1.north ≤ (y : Rat)
  · rw [if_pos hp]
  · rw [if_neg hp, if_pos (Or.inr (Or.inr ⟨hx1, hx2⟩))]

lemma createSmileyLandmasses_terrain (inFeature : Nat → Nat → Bool)
    (hF : Nat → Nat → Rat) (wH cutoff : Rat) (c1 c2 : ContinentQ)
    (w h : Nat) (g0 : Grid) {x y : Nat} (hxw : x < w) (hyh : y < h) :
    (createSmileyLandmasses inFeature hF wH cutoff c1 c2 w h g0).terrainAt
      x y = smileyTerrainAt inFeature hF wH cutoff c1 c2 x y := by
  unfold createSmileyLandmasses
  dsimp only
  rw [if_pos ⟨hxw, hyh⟩]

/-- C1 amended: ocean-gap invariant on the interior of the gap: for every y
and every x strictly inside the gap by one column on the left and two on the
right (`westContinent.east + 1 ≤ x` and `x + 1 < eastContinent.west`), cell
(x, y) is Ocean after classification and still Ocean after coast expansion.
(The claim's inclusive range fails: the column x = eastContinent.west
belongs to the east continent and can hold land, and the one or two
gap-edge columns adjacent to possible land can be promoted to Coast by
`expandCoasts`.) -/
theorem ocean_gap_interior_ocean (inFeature : Nat → Nat → Bool)
    (hF : Nat → Nat → Rat) (wH cutoff : Rat)
    (w h oceanCols polarRows : Nat) (ρ : Nat → Nat) (k0 : Nat) (g0 : Grid)
    (x y : Nat)
    (hx1 : (smileyWestContinent w h oceanCols polarRows).east + 1 ≤ (x : Rat))
    (hx2 : (x : Rat) + 1 < (smileyEastContinent w h oceanCols polarRows).west)
    (hxw : x < w) (hyh : y < h) :
    (createSmileyLandmasses inFeature hF wH cutoff
        (smileyWestContinent w h oceanCols polarRows)
        (smileyEastContinent w h oceanCols polarRows) w h g0).terrainAt x y =
      TerrainKind.Ocean ∧
    (smileyPipeline inFeature hF wH cutoff w h oceanCols polarRows ρ k0
      g0).1.terrainAt x y = TerrainKind.Ocean := by
  set c1 := smileyWestContinent w h oceanCols polarRows with hc1
  set c2 := smileyEastContinent w h oceanCols polarRows with hc2
  set g1 := createSmileyLandmasses inFeature hF wH cutoff c1 c2 w h g0 with hg1
  have hcls : g1.terrainAt x y = TerrainKind.Ocean := by
    rw [hg1, createSmileyLandmasses_terrain inFeature hF wH cutoff c1 c2 w h
      g0 hxw hyh]
    exact smileyTerrainAt_gap inFeature hF wH cutoff c1 c2 y
      (by linarith) (by linarith)
  have hadj : isAdjacentToShallowWater g1 w h x y = false := by
    unfold isAdjacentToShallowWater
    rw [List.any_eq_false]
    intro c hcmem
    have hb := mem_neighbors hcmem
    have hq1 : ((x : Int) : Rat) - 1 ≤ ((c.1 : Int) : Rat) := by
      exact_mod_cast hb.1
    have hq2 : ((c.1 : Int) : Rat) ≤ ((x : Int) : Rat) + 1 := by
      exact_mod_cast hb.2.1
    push_cast at hq1 hq2
    have hoc : g1.terrainAt c.1 c.2 = TerrainKind.Ocean := by
      rw [hg1, createSmileyLandmasses_terrain inFeature hF wH cutoff c1 c2
        w h g0 hb.2.2.1 hb.2.2.2]
      exact smileyTerrainAt_gap inFeature hF wH cutoff c1 c2 c.2
        (by linarith) (by linarith)
    rw [hoc]
    decide
  refine ⟨hcls, ?_⟩
  have hI := expandCoasts_inv ρ w h g1 k0
  have hpipe : (smileyPipeline inFeature hF wH cutoff w h oceanCols polarRows
      ρ k0 g0).1 = (expandCoasts ρ w h g1 k0).1 := rfl
  rw [hpipe]
  rcases hI.1 x y with heq | ⟨_, _, hadj'⟩
  · rw [heq]; exact hcls
  · rw [hadj] at hadj'
    exact absurd hadj' (by decide)

/-- Witness for `ocean_gap_interior_ocean`: a 26×4 instance, interior gap
cell (5, 1). -/
theorem ocean_gap_interior_ocean_witness :
    (createSmileyLandmasses (fun _ _ => false) (fun _ _ => 1000) 10 1
        (smileyWestContinent 26 4 0 1) (smileyEastContinent 26 4 0 1)
        26 4 emptyGrid).terrainAt 5 1 = TerrainKind.Ocean ∧
    (smileyPipeline (fun _ _ => false) (fun _ _ => 1000) 10 1 26 4 0 1
      (fun _ => 1) 0 emptyGrid).1.terrainAt 5 1 = TerrainKind.Ocean :=
  ocean_gap_interior_ocean (fun _ _ => false) (fun _ _ => 1000) 10 1 26 4 0 1
    (fun _ => 1) 0 emptyGrid 5 1
    (by norm_num [smileyWestContinent])
    (by norm_num [smileyEastContinent]) (by decide) (by decide)

/-- C1 counterexample: on a 26×4 grid (ocean margin 0, polar rows 1) with a
height field entirely above the water threshold, the column
x = eastContinent.west = 25 — included by the claim's inclusive range
`westContinent.east ≤ x ≤ eastContinent.west` — holds Flat land in the
final grid after classification and coast expansion. -/
theorem ocean_gap_inclusive_counterexample :
    ((smileyWestContinent 26 4 0 1).east ≤ (25 : Rat) ∧
      (25 : Rat) ≤ (smileyEastContinent 26 4 0 1).west) ∧
    (smileyPipeline (fun _ _ => false) (fun _ _ => 1000) 10 1 26 4 0 1
      (fun _ => 1) 0 emptyGrid).1.terrainAt 25 1 ≠ TerrainKind.Ocean := by
  refine ⟨⟨by norm_num [smileyWestContinent], by norm_num [smileyEastContinent]⟩, ?_⟩
  have hcls : (createSmileyLandmasses (fun _ _ => false) (fun _ _ => 1000)
      10 1 (smileyWestContinent 26 4 0 1) (smileyEastContinent 26 4 0 1)
      26 4 emptyGrid).terrainAt 25 1 = TerrainKind.Flat := by
    rw [createSmileyLandmasses_terrain (fun _ _ => false) (fun _ _ => 1000)
      10 1 (smileyWestContinent 26 4 0 1) (smileyEastContinent 26 4 0 1)
      26 4 emptyGrid (by decide) (by decide)]
    unfold smileyTerrainAt
    norm_num [smileyWestContinent, smileyEastContinent]
  intro hO
  have hI := expandCoasts_inv (fun _ => 1) 26 4
    (createSmileyLandmasses (fun _ _ => false) (fun _ _ => 1000) 10 1
      (smileyWestContinent 26 4 0 1) (smileyEastContinent 26 4 0 1)
      26 4 emptyGrid) 0
  rcases hI.1 25 1 with heq | ⟨_, hoc, _⟩
  · rw [show (smileyPipeline (fun _ _ => false) (fun _ _ => 1000) 10 1 26 4
        0 1 (fun _ => 1) 0 emptyGrid).1 = (expandCoasts (fun _ => 1) 26 4
        (createSmileyLandmasses (fun _ _ => false) (fun _ _ => 1000) 10 1
          (smileyWestContinent 26 4 0 1) (smileyEastContinent 26 4 0 1)
          26 4 emptyGrid) 0).1 from rfl, heq, hcls] at hO
    cases hO
  · rw [hcls] at hoc
    cases hoc

lemma expandCoastsStep_effect (ρ : Nat → Nat) (w h : Nat) (g : Grid)
    (k : Nat) (c : Nat × Nat) :
    (expandCoastsStep ρ w h (g, k) c).1 = g ∨
      ((expandCoastsStep ρ w h (g, k) c).1 =
        g.setTerrainType c.1 c.2 TerrainKind.Coast ∧
        g.terrainAt c.1 c.2 = TerrainKind.Ocean) := by
  by_cases hd : g.terrainAt c.1 c.2 = TerrainKind.Ocean ∧
      isAdjacentToShallowWater g w h c.1 c.2 = true
  · rw [expandCoastsStep_draw hd.1 hd.2]
    by_cases h3 : getRandomNumber ρ k 2 = 0
    · rw [if_pos h3]; exact Or.inr ⟨rfl, hd.1⟩
    · rw [if_neg h3]; exact Or.inl rfl
  · rw [expandCoastsStep_no_draw hd]; exact Or.inl rfl

lemma expandCoastsStep_other_cell {ρ : Nat → Nat} {w h : Nat} {g : Grid}
    {k : Nat} {c : Nat × Nat} {x y : Nat} (hne : ¬(x = c.1 ∧ y = c.2)) :
    (expandCoastsStep ρ w h (g, k) c).1.terrainAt x y = g.terrainAt x y := by
  rcases expandCoastsStep_effect ρ w h g k c with heff | ⟨heff, _⟩
  · rw [heff]
  · rw [heff, setTerrainType_lookup, if_neg hne]

lemma expandCoastsStep_isLand (ρ : Nat → Nat) (w h : Nat) (g : Grid)
    (k : Nat) (c : Nat × Nat) (a b : Nat) :
    isLandB ((expandCoastsStep ρ w h (g, k) c).1.terrainAt a b) =
      isLandB (g.terrainAt a b) := by
  rcases expandCoastsStep_effect ρ w h g k c with heff | ⟨heff, hoc⟩
  · rw [heff]
  · rw [heff, setTerrainType_lookup]
    by_cases hab : a = c.1 ∧ b = c.2
    · rw [if_pos hab]
      obtain ⟨rfl, rfl⟩ := hab
      rw [hoc]
      rfl
    · rw [if_neg hab]

lemma expandCoasts_foldl_untouched (ρ : Nat → Nat) (w h : Nat) :
    ∀ (L : List (Nat × Nat)) (g : Grid) (k x y : Nat), (x, y) ∉ L →
      (L.foldl (expandCoastsStep ρ w h) (g, k)).1.terrainAt x y =
        g.terrainAt x y := by
  intro L
  induction L with
  | nil => intro g k x y _; rfl
  | cons c t ih =>
      intro g k x y hmem
      rw [List.foldl_cons]
      rcases hst : expandCoastsStep ρ w h (g, k) c with ⟨g', k'⟩
      have hne : ¬(x = c.1 ∧ y = c.2) := by
        intro hab
        have hxy : (x, y) = c := Prod.ext hab.1 hab.2
        exact hmem (hxy ▸ List.mem_cons_self c t)
      have h1 : g'.terrainAt x y = g.terrainAt x y := by
        have h2 := expandCoastsStep_other_cell (ρ := ρ) (w := w) (h := h)
          (g := g) (k := k) (c := c) hne
        rw [hst] at h2
        exact h2
      rw [ih g' k' x y fun hm => hmem (List.mem_cons_of_mem c hm), h1]

lemma expandCoasts_foldl_promotes (ρ : Nat → Nat) (w h : Nat) (g0 : Grid)
    (hρ : ∀ i, ρ i % 2 = 0) :
    ∀ (L : List (Nat × Nat)) (g : Grid) (k x y : Nat), L.Nodup →
      (x, y) ∈ L →
      g.terrainAt x y = g0.terrainAt x y →
      (∀ a b, isLandB (g.terrainAt a b) = isLandB (g0.terrainAt a b)) →
      g0.terrainAt x y = TerrainKind.Ocean →
      isAdjacentToShallowWater g0 w h x y = true →
      (L.foldl (expandCoastsStep ρ w h) (g, k)).1.terrainAt x y =
        TerrainKind.Coast := by
  intro L
  induction L with
  | nil => intro g k x y _ hmem; cases hmem
  | cons c t ih =>
      intro g k x y hnd hmem hcell hland hoc hadj
      rw [List.foldl_cons]
      by_cases hc : (x, y) = c
      · have hO : g.terrainAt x y = TerrainKind.Ocean := by
          rw [hcell]; exact hoc
        have hA : isAdjacentToShallowWater g w h x y = true := by
          rw [isAdjacentToShallowWater_congr w h x y hland]; exact hadj
        have hstep : expandCoastsStep ρ w h (g, k) c =
            (g.setTerrainType x y TerrainKind.Coast, k + 1) := by
          rw [← hc]
          rw [expandCoastsStep_draw (c := (x, y)) hO hA]
          have hdraw : getRandomNumber ρ k 2 = 0 := hρ k
          rw [if_pos hdraw]
        rw [hstep]
        have hnotin : (x, y) ∉ t := hc ▸ (List.nodup_cons.mp hnd).1
        rw [expandCoasts_foldl_untouched ρ w h t _ _ x y hnotin,
          setTerrainType_lookup, if_pos ⟨rfl, rfl⟩]
      · rcases hst : expandCoastsStep ρ w h (g, k) c with ⟨g', k'⟩
        have hne : ¬(x = c.1 ∧ y = c.2) := by
          intro hab
          have hxy : (x, y) = c := Prod.ext hab.1 hab.2
          exact hc hxy
        have hcell' : g'.terrainAt x y = g0.terrainAt x y := by
          have h2 := expandCoastsStep_other_cell (ρ := ρ) (w := w) (h := h)
            (g := g) (k := k) (c := c) hne
          rw [hst] at h2
          rw [h2, hcell]
        have hland' : ∀ a b, isLandB (g'.terrainAt a b) =
            isLandB (g0.terrainAt a b) := by
          intro a b
          have h2 := expandCoastsStep_isLand ρ w h g k c a b
          rw [hst] at h2
          rw [h2, hland a b]
        have hmem' : (x, y) ∈ t := by
          rcases List.mem_cons.mp hmem with he | ht
          · exact absurd he hc
          · exact ht
        exact ih g' k' x y (List.nodup_cons.mp hnd).2 hmem' hcell' hland'
          hoc hadj

/-- Mask instance used in concrete ShapeMask tests: exactly cell (0, 1). -/
def maskCell01 : Nat → Nat → Bool := fun x y => x == 0 && y == 1

/-- C6 amended: the ShapeMask is a hard override of the height test at
classification time: every in-bounds cell where the mask predicate is true
is Ocean in the classified grid regardless of the height field.  In the
final grid (after coast expansion) such a cell is still water — Ocean or
Coast — but it need not remain Ocean, because the coast expander may
promote masked water bordering land to Coast. -/
theorem shape_mask_override (inFeature : Nat → Nat → Bool)
    (hF : Nat → Nat → Rat) (wH cutoff : Rat)
    (w h oceanCols polarRows : Nat) (ρ : Nat → Nat) (k0 : Nat) (g0 : Grid)
    (x y : Nat) (hmask : inFeature x y = true) (hxw : x < w) (hyh : y < h) :
    (createSmileyLandmasses inFeature hF wH cutoff
        (smileyWestContinent w h oceanCols polarRows)
        (smileyEastContinent w h oceanCols polarRows) w h g0).terrainAt x y =
      TerrainKind.Ocean ∧
    ((smileyPipeline inFeature hF wH cutoff w h oceanCols polarRows ρ k0
        g0).1.terrainAt x y = TerrainKind.Ocean ∨
      (smileyPipeline inFeature hF wH cutoff w h oceanCols polarRows ρ k0
        g0).1.terrainAt x y = TerrainKind.Coast) := by
  set c1 := smileyWestContinent w h oceanCols polarRows with hc1
  set c2 := smileyEastContinent w h oceanCols polarRows with hc2
  have hcls : (createSmileyLandmasses inFeature hF wH cutoff c1 c2 w h
      g0).terrainAt x y = TerrainKind.Ocean := by
    rw [createSmileyLandmasses_terrain inFeature hF wH cutoff c1 c2 w h g0
      hxw hyh]
    unfold smileyTerrainAt
    by_cases h1 : (y : Rat) < c1.south ∨ c1.north ≤ (y : Rat)
    · rw [if_pos h1]
    · rw [if_neg h1]
      by_cases h2 : (x : Rat) < c1.west ∨ c2.east ≤ (x : Rat) ∨
          (c1.east ≤ (x : Rat) ∧ (x : Rat) < c2.west)
      · rw [if_pos h2]
      · rw [if_neg h2, if_pos (Or.inl hmask)]
  refine ⟨hcls, ?_⟩
  have hI := expandCoasts_inv ρ w h
    (createSmileyLandmasses inFeature hF wH cutoff c1 c2 w h g0) k0
  rcases hI.1 x y with heq | ⟨hcst, _, _⟩
  · left
    rw [show (smileyPipeline inFeature hF wH cutoff w h oceanCols polarRows
        ρ k0 g0).1 = (expandCoasts ρ w h (createSmileyLandmasses inFeature hF
        wH cutoff c1 c2 w h g0) k0).1 from rfl, heq, hcls]
  · right
    rw [show (smileyPipeline inFeature hF wH cutoff w h oceanCols polarRows
        ρ k0 g0).1 = (expandCoasts ρ w h (createSmileyLandmasses inFeature hF
        wH cutoff c1 c2 w h g0) k0).1 from rfl, hcst]

/-- Witness for `shape_mask_override` at a concrete masked cell of a 25×4
instance with a height field entirely above the land threshold. -/
theorem shape_mask_override_witness :
    (createSmileyLandmasses maskCell01 (fun _ _ => 1000) 10 1
        (smileyWestContinent 25 4 0 1) (smileyEastContinent 25 4 0 1)
        25 4 emptyGrid).terrainAt 0 1 = TerrainKind.Ocean ∧
    ((smileyPipeline maskCell01 (fun _ _ => 1000) 10 1 25 4 0 1
        (fun _ => 0) 0 emptyGrid).1.terrainAt 0 1 = TerrainKind.Ocean ∨
      (smileyPipeline maskCell01 (fun _ _ => 1000) 10 1 25 4 0 1
        (fun _ => 0) 0 emptyGrid).1.terrainAt 0 1 = TerrainKind.Coast) :=
  shape_mask_override maskCell01 (fun _ _ => 1000) 10 1 25 4 0 1
    (fun _ => 0) 0 emptyGrid 0 1 (by decide) (by decide) (by decide)

set_option maxRecDepth 8000 in
set_option maxHeartbeats 2000000 in
/-- C6 counterexample: on a 25×4 instance with the mask true exactly at
(0, 1) and a height field entirely above the land threshold (1000 against
threshold 10·1), the masked cell borders the land at (0, 2), so coast
expansion promotes it: the final TerrainKind at the masked cell is Coast,
not Ocean. -/
theorem shape_mask_final_counterexample :
    maskCell01 0 1 = true ∧
    (smileyPipeline maskCell01 (fun _ _ => 1000) 10 1 25 4 0 1 (fun _ => 0)
      0 emptyGrid).1.terrainAt 0 1 = TerrainKind.Coast ∧
    TerrainKind.Coast ≠ TerrainKind.Ocean := by
  refine ⟨rfl, ?_, by decide⟩
  set g1 := createSmileyLandmasses maskCell01 (fun _ _ => 1000) 10 1
    (smileyWestContinent 25 4 0 1) (smileyEastContinent 25 4 0 1)
    25 4 emptyGrid with hg1
  have hoc : g1.terrainAt 0 1 = TerrainKind.Ocean := by
    rw [hg1, createSmileyLandmasses_terrain maskCell01 (fun _ _ => 1000)
      10 1 (smileyWestContinent 25 4 0 1) (smileyEastContinent 25 4 0 1)
      25 4 emptyGrid (by decide) (by decide)]
    unfold smileyTerrainAt
    norm_num [smileyWestContinent, smileyEastContinent, maskCell01]
  have hland02 : isLandB (g1.terrainAt 0 2) = true := by
    rw [hg1, createSmileyLandmasses_terrain maskCell01 (fun _ _ => 1000)
      10 1 (smileyWestContinent 25 4 0 1) (smileyEastContinent 25 4 0 1)
      25 4 emptyGrid (by decide) (by decide)]
    have hterr : smileyTerrainAt maskCell01 (fun _ _ => 1000) 10 1
        (smileyWestContinent 25 4 0 1) (smileyEastContinent 25 4 0 1) 0 2 =
        TerrainKind.Flat := by
      unfold smileyTerrainAt
      norm_num [smileyWestContinent, smileyEastContinent, maskCell01]
    rw [hterr]
    rfl
  have hadj : isAdjacentToShallowWater g1 25 4 0 1 = true := by
    unfold isAdjacentToShallowWater
    rw [List.any_eq_true]
    exact ⟨(0, 2), by decide, hland02⟩
  have hmemscan : ((0 : Nat), (1 : Nat)) ∈ scanCoords 25 4 := by decide
  have hres := expandCoasts_foldl_promotes (fun _ => 0) 25 4 g1 (fun _ => rfl)
    (scanCoords 25 4) g1 0 0 1 (scanCoords_nodup 25 4) hmemscan
    rfl (fun _ _ => rfl) hoc hadj
  rw [hg1] at hres
  exact hres

/-- C8: evaluation of the earthlike classifier at the failing input: on a
12×6 grid with one ocean margin column and one polar row, the west region
has north bound 5 = height − polarRows, and the claim requires every cell
of every row y ≥ 5 within the region's horizontal extent to be Ocean; the
classifier's inclusive row loop (`for y = south; y <= continent.north`)
instead produces Flat land at (1, 5) for a height field above the
threshold. -/
theorem polar_row_failing_eval :
    ((earthWestContinent 12 6 1 1).north ≤ (5 : Int) ∧
      (earthWestContinent 12 6 1 1).west ≤ (1 : Int) ∧
      (1 : Int) ≤ (earthWestContinent 12 6 1 1).east) ∧
    (earthlikeClassify fpAllLand fpAllLand 12 6 1 1 emptyGrid).terrainAt 1 5 =
      TerrainKind.Flat ∧
    TerrainKind.Flat ≠ TerrainKind.Ocean :=
  ⟨by decide, by decide, by decide⟩

/-- Tag bits marking landmass membership. -/
def landTagged (t : TagSet) : Bool := t.landmass || t.landWest || t.landEast

/-- Tag bits marking water membership. -/
def waterTagged (t : TagSet) : Bool := t.water || t.waterWest || t.waterEast

/-- Tag/terrain consistency at one cell: landmass tags only on non-Ocean
cells, water tags only on Ocean or Coast cells (spec §3). -/
def tagsConsistentAt (g : Grid) (x y : Nat) : Prop :=
  (landTagged (g.tagsAt x y) = true → g.terrainAt x y ≠ TerrainKind.Ocean) ∧
  (waterTagged (g.tagsAt x y) = true →
    (g.terrainAt x y = TerrainKind.Ocean ∨
      g.terrainAt x y = TerrainKind.Coast))

lemma waterTagged_land (x : Nat) (e : Rat) :
    waterTagged (addLandmassPlotTags x e) = false := rfl

lemma landTagged_water (x : Nat) (e : Rat) :
    landTagged (addWaterPlotTags x e) = false := rfl

lemma tagsConsistentAt_expandCoasts {w h : Nat} {g0 : Grid} (ρ : Nat → Nat)
    (k0 x y : Nat) (hc : tagsConsistentAt g0 x y) :
    tagsConsistentAt (expandCoasts ρ w h g0 k0).1 x y := by
  have hI := expandCoasts_inv ρ w h g0 k0
  constructor
  · intro hl
    rw [hI.2 x y] at hl
    rcases hI.1 x y with heq | ⟨_, hoc, _⟩
    · rw [heq]; exact hc.1 hl
    · exact absurd hoc (hc.1 hl)
  · intro hw
    rw [hI.2 x y] at hw
    rcases hI.1 x y with heq | ⟨hcst, _, _⟩
    · rw [heq]; exact hc.2 hw
    · rw [hcst]; exact Or.inr rfl

lemma smiley_classified_consistent (inFeature : Nat → Nat → Bool)
    (hF : Nat → Nat → Rat) (wH cutoff : Rat) (c1 c2 : ContinentQ)
    (w h : Nat) (g0 : Grid) {x y : Nat} (hxw : x < w) (hyh : y < h) :
    tagsConsistentAt (createSmileyLandmasses inFeature hF wH cutoff c1 c2
      w h g0) x y := by
  have hterr := createSmileyLandmasses_terrain inFeature hF wH cutoff c1 c2
    w h g0 hxw hyh
  have htags : (createSmileyLandmasses inFeature hF wH cutoff c1 c2 w h
      g0).tagsAt x y = smileyTagsAt inFeature hF wH cutoff c1 c2 x y := by
    unfold createSmileyLandmasses
    dsimp only
    rw [if_pos ⟨hxw, hyh⟩]
  constructor
  · intro hl
    rw [htags] at hl
    rw [hterr]
    unfold smileyTagsAt at hl
    by_cases hcond : smileyTerrainAt inFeature hF wH cutoff c1 c2 x y ≠
        TerrainKind.Ocean ∧
        smileyTerrainAt inFeature hF wH cutoff c1 c2 x y ≠ TerrainKind.Coast
    · exact hcond.1
    · rw [if_neg hcond, landTagged_water] at hl
      exact absurd hl (by decide)
  · intro hw
    rw [htags] at hw
    rw [hterr]
    unfold smileyTagsAt at hw
    by_cases hcond : smileyTerrainAt inFeature hF wH cutoff c1 c2 x y ≠
        TerrainKind.Ocean ∧
        smileyTerrainAt inFeature hF wH cutoff c1 c2 x y ≠ TerrainKind.Coast
    · rw [if_pos hcond, waterTagged_land] at hw
      exact absurd hw (by decide)
    · by_cases ho : smileyTerrainAt inFeature hF wH cutoff c1 c2 x y =
          TerrainKind.Ocean
      · exact Or.inl ho
      · refine Or.inr ?_
        by_contra hco
        exact hcond ⟨ho, hco⟩

lemma tagsConsistentAt_primaryPass (hF : Nat → Nat → Rat) (thr : Rat)
    (cont : ContinentI) (eastW : Int) {g : Grid} {x y : Nat}
    (hc : tagsConsistentAt g x y) :
    tagsConsistentAt (createContinentPrimaryPass hF thr cont eastW g) x y := by
  unfold createContinentPrimaryPass tagsConsistentAt
  dsimp only
  by_cases hcond : inContinentRegion cont x y ∧
      g.terrainAt x y = TerrainKind.Ocean ∧ thr ≤ hF x y
  · rw [if_pos hcond, if_pos hcond]
    constructor
    · intro _
      decide
    · intro hw
      rw [waterTagged_land] at hw
      exact absurd hw (by decide)
  · rw [if_neg hcond, if_neg hcond]
    exact hc

lemma tagsConsistentAt_secondaryPass (hF : Nat → Nat → Rat) (thr : Rat)
    (cont : ContinentI) (eastW : Int) {g : Grid} {x y : Nat}
    (hc : tagsConsistentAt g x y) :
    tagsConsistentAt (createContinentSecondaryPass hF thr cont eastW g)
      x y := by
  unfold createContinentSecondaryPass tagsConsistentAt
  dsimp only
  by_cases hcond : inContinentRegion cont x y ∧
      g.terrainAt x y = TerrainKind.Flat ∧ hF x y < thr
  · rw [if_pos hcond, if_pos hcond]
    constructor
    · intro hl
      rw [landTagged_water] at hl
      exact absurd hl (by decide)
    · intro _
      exact Or.inl rfl
  · rw [if_neg hcond, if_neg hcond]
    exact hc

lemma tagsConsistentAt_init (w h : Nat) (g0 : Grid) {x y : Nat}
    (hxw : x < w) (hyh : y < h) :
    tagsConsistentAt (initOceanGrid w h g0) x y := by
  unfold initOceanGrid tagsConsistentAt
  dsimp only
  rw [if_pos ⟨hxw, hyh⟩, if_pos ⟨hxw, hyh⟩]
  constructor
  · intro hl
    exact absurd hl (by decide)
  · intro _
    exact Or.inl rfl

lemma earthlike_classified_consistent (fpWest fpEast : FractalParams)
    (w h oceanCols polarRows : Nat) (g0 : Grid) {x y : Nat}
    (hxw : x < w) (hyh : y < h) :
    tagsConsistentAt (earthlikeClassify fpWest fpEast w h oceanCols
      polarRows g0) x y := by
  unfold earthlikeClassify createContinent
  exact tagsConsistentAt_secondaryPass _ _ _ _
    (tagsConsistentAt_primaryPass _ _ _ _
      (tagsConsistentAt_secondaryPass _ _ _ _
        (tagsConsistentAt_primaryPass _ _ _ _
          (tagsConsistentAt_init w h g0 hxw hyh))))

/-- C9: tag/terrain consistency invariant: at every in-bounds cell, after
smiley classification, after the smiley pipeline's coast expansion, and
after the earthlike two-pass classification (including the secondary
reversion), the tag set never contradicts the terrain kind: landmass tags
appear only on non-Ocean cells and water tags only on Ocean or Coast
cells. -/
theorem tag_terrain_consistency (inFeature : Nat → Nat → Bool)
    (hF : Nat → Nat → Rat) (wH cutoff : Rat)
    (w h oceanCols polarRows : Nat) (ρ : Nat → Nat) (k0 : Nat) (g0 : Grid)
    (fpWest fpEast : FractalParams) (w2 h2 oc2 pr2 : Nat) (g2 : Grid)
    (x y x2 y2 : Nat) (hxw : x < w) (hyh : y < h) (hxw2 : x2 < w2)
    (hyh2 : y2 < h2) :
    tagsConsistentAt (createSmileyLandmasses inFeature hF wH cutoff
      (smileyWestContinent w h oceanCols polarRows)
      (smileyEastContinent w h oceanCols polarRows) w h g0) x y ∧
    tagsConsistentAt (smileyPipeline inFeature hF wH cutoff w h oceanCols
      polarRows ρ k0 g0).1 x y ∧
    tagsConsistentAt (earthlikeClassify fpWest fpEast w2 h2 oc2 pr2 g2)
      x2 y2 := by
  refine ⟨smiley_classified_consistent inFeature hF wH cutoff _ _ w h g0
      hxw hyh, ?_,
    earthlike_classified_consistent fpWest fpEast w2 h2 oc2 pr2 g2
      hxw2 hyh2⟩
  exact tagsConsistentAt_expandCoasts ρ k0 x y
    (smiley_classified_consistent inFeature hF wH cutoff
      (smileyWestContinent w h oceanCols polarRows)
      (smileyEastContinent w h oceanCols polarRows) w h g0 hxw hyh)

/-- Witness for `tag_terrain_consistency` at concrete cells of concrete
smiley and earthlike instances. -/
theorem tag_terrain_consistency_witness :
    tagsConsistentAt (createSmileyLandmasses (fun _ _ => false)
      (fun _ _ => 0) 0 0 (smileyWestContinent 1 1 0 0)
      (smileyEastContinent 1 1 0 0) 1 1 emptyGrid) 0 0 ∧
    tagsConsistentAt (smileyPipeline (fun _ _ => false) (fun _ _ => 0) 0 0
      1 1 0 0 (fun _ => 0) 0 emptyGrid).1 0 0 ∧
    tagsConsistentAt (earthlikeClassify fpAllLand fpAllLand 12 6 1 1
      emptyGrid) 1 1 :=
  tag_terrain_consistency (fun _ _ => false) (fun _ _ => 0) 0 0 1 1 0 0
    (fun _ => 0) 0 emptyGrid fpAllLand fpAllLand 12 6 1 1 emptyGrid
    0 0 1 1 (by decide) (by decide) (by decide) (by decide)

end Civ7Map
